import Mathlib

/-!
Verification development for the AlphaZero parallel self-play coordinator
(AlphaZero/train/parallel/selfplay.py) and the mnk game environment
(AlphaZero/env/mnk.py).

The Python code is shallowly embedded: each method becomes a pure Lean
function over an explicit state; external collaborators (game play,
queue enqueueing, socket sends, pickle) become parameters or small
concrete models; exceptions become Except values carrying the state at
the point where the exception propagates.
-/

/-- Payload of one self-play game record (the value returned by
game.get_history and shipped through data_queue). Its structure is
irrelevant to the coordination layer, so it is a type parameter in the
loops below and a plain Nat where a concrete instance is needed. -/
abbrev GameData := Nat

/-- State touched by Selfplay.selfplay_wrapper: the read-hold count this
worker has on nn_eval.rwlock, the number of currently available units of
the worker_lim semaphore, and the contents of data_queue. -/
structure WrapperState where
  readLocks : Nat
  semAvail : Nat
  dataQueue : List GameData
  deriving Repr, DecidableEq

/-- Which external call of selfplay_wrapper raised, when one did. -/
inductive WrapperErr where
  | gameError : WrapperErr
  | queueError : WrapperErr
  deriving Repr, DecidableEq

/-- Embedding of Selfplay.selfplay_wrapper (selfplay.py lines 71-89).
The body is straight-line code with no try/finally:
  r_acquire; play the game; data = get_history; data_queue.put(data);
  r_release; worker_lim.release().
`play` is the outcome of constructing and playing the game (Game(...),
game.start(), game.get_history()); `putFails` says whether
data_queue.put raises. An exception propagates immediately with the
state as it stands at that point. -/
def selfplay_wrapper (play : Except Unit GameData) (putFails : Bool)
    (st : WrapperState) : Except (WrapperErr × WrapperState) WrapperState :=
  let st1 : WrapperState := { st with readLocks := st.readLocks + 1 }
  match play with
  | .error _ => .error (.gameError, st1)
  | .ok data =>
    if putFails then .error (.queueError, st1)
    else
      let st2 : WrapperState := { st1 with dataQueue := st1.dataQueue ++ [data] }
      let st3 : WrapperState := { st2 with readLocks := st2.readLocks - 1 }
      .ok { st3 with semAvail := st3.semAvail + 1 }

/-- Abstract state of the worker pool: units of worker_lim still
available, and worker processes currently running. -/
structure PoolState where
  avail : Nat
  running : Nat
  deriving Repr, DecidableEq

/-- Initial pool state: worker_lim = mp.Semaphore(num_worker)
(selfplay.py line 57), no worker running. -/
def poolInit (N : Nat) : PoolState := ⟨N, 0⟩

/-- Transitions of the Selfplay launcher loop (selfplay.py lines 103-108)
together with worker-unit completion (selfplay_wrapper). `launch` is one
iteration of the loop: worker_lim.acquire() blocks until a unit is
available, then a new worker process starts. `finish` is a worker
completing its normal path, which performs the single
worker_lim.release() of selfplay_wrapper. `fail` is a worker dying from
an exception: the code has no try/finally, so no unit is released. -/
inductive PoolStep : PoolState → PoolState → Prop where
  | launch (s : PoolState) (h : 0 < s.avail) :
      PoolStep s ⟨s.avail - 1, s.running + 1⟩
  | finish (s : PoolState) (h : 0 < s.running) :
      PoolStep s ⟨s.avail + 1, s.running - 1⟩
  | fail (s : PoolState) (h : 0 < s.running) :
      PoolStep s ⟨s.avail, s.running - 1⟩

/-- Pool states reachable from the initial state by launcher and worker
steps. -/
def PoolReachable (N : Nat) (s : PoolState) : Prop :=
  Relation.ReflTransGen PoolStep (poolInit N) s

/-- Serialized bytes on the wire. The payload alphabet is modelled as
characters; the framing (length prefix, pickling) is implementation
defined per the spec, so only its shape matters here. -/
abbrev Bytes := List Char

/-- Model of pickle.dumps for a model-identifier string: a tag byte
followed by the characters of the string. -/
def pickle_dumps_str (s : String) : Bytes := 'S' :: s.data

/-- Model of pickle.loads for a model-identifier string. Bytes that do
not carry the tag (malformed or truncated frames) raise, i.e. return an
error, exactly as pickle.loads raises on junk input. -/
def pickle_loads_str (b : Bytes) : Except Unit String :=
  match b with
  | 'S' :: rest => .ok (String.mk rest)
  | _ => .error ()

/-- One inbound connection as a receiving handler sees it: the peer
address (client_address[0]) and the successive non-empty chunks returned
by client_connection.recv before the empty read signalling EOF. -/
structure Conn where
  addr : String
  chunks : List Bytes
  deriving Repr, DecidableEq

/-- Events observable in a receiving handler run, in program order:
accepting a connection, one recv call returning a non-empty chunk,
deserializing the accumulated buffer (pickle.loads), closing the
connection, processing the decoded frame (data_queue.put or
nn_eval.load), and, for the sending side, one Remote_Queue send attempt
and the local nn_eval.load. -/
inductive HEvent where
  | accept (addr : String) : HEvent
  | recv (chunk : Bytes) : HEvent
  | deserialize (buf : Bytes) : HEvent
  | closeConn : HEvent
  | process : HEvent
  | send (addr : String) (payload : String) : HEvent
  | sendFail (addr : String) (payload : String) : HEvent
  | load (ident : String) : HEvent
  deriving Repr, DecidableEq

/-- The events of handling one accepted connection: accept, the recv
loop until EOF, then, when pickle.loads succeeds, deserialize of the
whole accumulated buffer, close, process. When pickle.loads raises
there is no further event: the exception propagates before the close. -/
def iter_trace (ok : Bool) (c : Conn) : List HEvent :=
  HEvent.accept c.addr :: c.chunks.map HEvent.recv ++
    (if ok then [HEvent.deserialize c.chunks.flatten, HEvent.closeConn, HEvent.process] else [])

/-- The RemoteWorkerRegistry: remote_worker_reg, a Python dict from
address to flag, kept as an insertion-ordered association list. -/
abbrev Registry := List (String × Bool)

/-- Python dict assignment reg[addr] = True: overwrite in place when the
key exists, append otherwise. -/
def reg_set (reg : Registry) (addr : String) : Registry :=
  if reg.any (fun p => p.1 == addr) then
    reg.map (fun p => if p.1 == addr then (p.1, true) else p)
  else reg ++ [(addr, true)]

/-- Key set of the registry, in insertion order. -/
def reg_keys (reg : Registry) : List String := reg.map (fun p => p.1)

/-- Python reg.get(addr) lookup. -/
def reg_lookup (reg : Registry) (addr : String) : Option Bool :=
  (reg.find? (fun p => p.1 == addr)).map (fun p => p.2)

/-- State of the master data-receiving handler: the shared data_queue
and the remote worker registry. -/
structure MasterState (α : Type) where
  dataQueue : List α
  reg : Registry
  deriving Repr, DecidableEq

/-- Embedding of Selfplay.rcv_remote_data_handler (selfplay.py lines
124-145) run on a finite prefix of incoming connections. Per iteration:
accept, recv until EOF accumulating ultimate_buffer, pickle.loads,
close, data_queue.put(frame), remote_worker_reg[addr] = True. The code
has no try/except: when pickle.loads raises, the exception leaves the
listening loop and the remaining connections are never accepted.
Returns the trace of events and either the final state or the error
with the state at the point the exception propagated. -/
def rcv_remote_data_loop (decode : Bytes → Except Unit α) (st : MasterState α) :
    List Conn → List HEvent × Except (Unit × MasterState α) (MasterState α)
  | [] => ([], .ok st)
  | c :: cs =>
    match decode c.chunks.flatten with
    | .error e => (iter_trace false c, .error (e, st))
    | .ok frame =>
      let st' : MasterState α :=
        { dataQueue := st.dataQueue ++ [frame], reg := reg_set st.reg c.addr }
      let rest := rcv_remote_data_loop decode st' cs
      (iter_trace true c ++ rest.1, rest.2)

/-- State of a remote session: the identifiers passed to nn_eval.load,
in order, and the (untouched) registry of that process. -/
structure RemoteState where
  loaded : List String
  reg : Registry
  deriving Repr, DecidableEq

/-- Embedding of Selfplay.remote_update_handler (selfplay.py lines
147-168) run on a finite prefix of incoming connections. Per iteration:
accept, recv until EOF, pickle.loads, close, nn_eval.load(frame). The
decoded frame is passed to load verbatim; the registry is never
touched. As in the data receiver, a pickle.loads failure propagates out
of the loop. -/
def remote_update_loop (decode : Bytes → Except Unit String) (st : RemoteState) :
    List Conn → List HEvent × Except (Unit × RemoteState) RemoteState
  | [] => ([], .ok st)
  | c :: cs =>
    match decode c.chunks.flatten with
    | .error e => (iter_trace false c, .error (e, st))
    | .ok ident =>
      let st' : RemoteState := { loaded := st.loaded ++ [ident], reg := st.reg }
      let rest := remote_update_loop decode st' cs
      (iter_trace true c ++ rest.1, rest.2)

/-- The checkpoint identifier built by the master for update path value
`path` received over r_conn: the string
./ + game name + _model/ckpt- + str(path) of selfplay.py lines 121-122,
with str(path) given as a string. -/
def ckpt_ident (name path : String) : String :=
  "./" ++ name ++ "_model/ckpt-" ++ path

/-- Modelled from the spec: Remote_Queue (AlphaZero/train/parallel/util.py)
is not under src/; only its caller model_update_handler is. Per the
spec, Remote_Queue(addr, port).put(payload) opens an outbound connection
and sends the payload as a length-prefixed serialized frame, and a
failure to reach the remote is reported but does not raise into the
caller (failures to reach an individual remote are reported but do not
abort notifying the others). `ok addr` says whether the remote at
`addr` is reachable. -/
def Remote_Queue_put (ok : String → Bool) (addr : String) (payload : String) : HEvent :=
  if ok addr then HEvent.send addr payload else HEvent.sendFail addr payload

/-- Embedding of one iteration of Selfplay.model_update_handler
(selfplay.py lines 116-122) for one path value received from r_conn:
for every entry of remote_worker_reg, in order, build the checkpoint
identifier and put it on a Remote_Queue to that address; then call
nn_eval.load on the same identifier locally. -/
def model_update_iter (ok : String → Bool) (reg : Registry) (name path : String) :
    List HEvent :=
  reg.map (fun p => Remote_Queue_put ok p.1 (ckpt_ident name path)) ++
    [HEvent.load (ckpt_ident name path)]

/-- The background handlers Selfplay.run starts. -/
inductive Handler where
  | remote_update : Handler
  | rcv_remote_data : Handler
  | model_update : Handler
  deriving Repr, DecidableEq

/-- Embedding of the thread-starting branch of Selfplay.run (selfplay.py
lines 97-101): a remote instance starts only remote_update_handler; a
master instance starts rcv_remote_data_handler and
model_update_handler. -/
def run_handlers (remote : Bool) : List Handler :=
  if remote then [Handler.remote_update]
  else [Handler.rcv_remote_data, Handler.model_update]

/-- Recognizers for trace events. -/
def isDeserialize : HEvent → Bool
  | HEvent.deserialize _ => true
  | _ => false

def isAccept : HEvent → Bool
  | HEvent.accept _ => true
  | _ => false

def isClose : HEvent → Bool
  | HEvent.closeConn => true
  | _ => false

def isProcess : HEvent → Bool
  | HEvent.process => true
  | _ => false

def isSendAttempt : HEvent → Bool
  | HEvent.send _ _ => true
  | HEvent.sendFail _ _ => true
  | _ => false

def isLoad : HEvent → Bool
  | HEvent.load _ => true
  | _ => false

/-! Embedding of AlphaZero/env/mnk.py. The board size and win length
come from the mnk.yaml config, so they are parameters here. -/

def WHITE : Int := -1
def BLACK : Int := 1
def EMPTY : Int := 0

/-- Board configuration loaded from mnk.yaml: board_width, board_height
and k. -/
structure MnkConfig where
  width : Nat
  height : Nat
  k : Nat
  deriving Repr, DecidableEq

/-- Embedding of mnk.GameState. board is indexed board[x][y] with x a
row in [0, height) and y a column in [0, width); winner None is none. -/
structure GameState where
  board : List (List Int)
  current_player : Int
  history : List (Int × Int)
  board_history : List (List (List Int))
  is_end_of_game : Bool
  winner : Option Int
  turns : Nat
  deriving Repr, DecidableEq

/-- GameState._on_board (mnk.py lines 38-48). -/
def _on_board (cfg : MnkConfig) (pos : Int × Int) : Bool :=
  decide (pos.1 ≥ 0 ∧ pos.2 ≥ 0 ∧ pos.1 < (cfg.height : Int) ∧ pos.2 < (cfg.width : Int))

/-- Read board[x][y]. Only evaluated after an _on_board check, as in the
source, so the defaults are never reached on those paths. -/
def board_get (b : List (List Int)) (x y : Int) : Int :=
  (b.getD x.toNat []).getD y.toNat 0

/-- Write board[x][y] = v. -/
def board_set (b : List (List Int)) (x y : Int) (v : Int) : List (List Int) :=
  b.set x.toNat ((b.getD x.toNat []).set y.toNat v)

/-- GameState.is_legal (mnk.py lines 66-80): legal iff on the board and
the cell is empty. -/
def is_legal (cfg : MnkConfig) (st : GameState) (action : Int × Int) : Bool :=
  if !(_on_board cfg action) then false
  else if board_get st.board action.1 action.2 != EMPTY then false
  else true

/-- One direction-scanning while loop of do_move (e.g. mnk.py lines
128-131): count consecutive stones of `player` from (x, y) moving by
(dx, dy) while still on the board. The loop leaves the board after at
most height + width steps, so that much fuel makes the recursion equal
to the while loop. -/
def count_dir (cfg : MnkConfig) (b : List (List Int)) (player : Int) :
    Nat → Int → Int → Int → Int → Nat
  | 0, _, _, _, _ => 0
  | Nat.succ fuel, x, y, dx, dy =>
    if _on_board cfg (x, y) && (board_get b x y == player) then
      1 + count_dir cfg b player fuel (x + dx) (y + dy) dx dy
    else 0

/-- The legal-move branch of GameState.do_move (mnk.py lines 114-179),
entered with current_player already set to the move color: push the old
board onto board_history and pop the oldest, append the action to
history, place the stone, bump turns, count the four lines through the
new stone, set is_end_of_game and winner on a win or a full board, and
hand the turn to -color. Returns the updated state and
is_end_of_game. -/
def do_move_legal (cfg : MnkConfig) (st1 : GameState) (action : Int × Int)
    (color : Int) : GameState × Bool :=
  let fuel := cfg.height + cfg.width + 1
  let x := action.1
  let y := action.2
  let st2 : GameState := { st1 with
    board_history := (st1.board_history ++ [st1.board]).drop 1,
    history := st1.history ++ [action],
    board := board_set st1.board x y color,
    turns := st1.turns + 1 }
  let p := st2.current_player
  let h_count := 1 + count_dir cfg st2.board p fuel (x + 1) y 1 0
                   + count_dir cfg st2.board p fuel (x - 1) y (-1) 0
  let v_count := 1 + count_dir cfg st2.board p fuel x (y + 1) 0 1
                   + count_dir cfg st2.board p fuel x (y - 1) 0 (-1)
  let diag1_count := 1 + count_dir cfg st2.board p fuel (x + 1) (y + 1) 1 1
                       + count_dir cfg st2.board p fuel (x - 1) (y - 1) (-1) (-1)
  let diag2_count := 1 + count_dir cfg st2.board p fuel (x + 1) (y - 1) 1 (-1)
                       + count_dir cfg st2.board p fuel (x - 1) (y + 1) (-1) 1
  let st3 : GameState :=
    if h_count ≥ cfg.k ∨ v_count ≥ cfg.k ∨ diag1_count ≥ cfg.k ∨ diag2_count ≥ cfg.k then
      { st2 with is_end_of_game := true, winner := some p }
    else if st2.turns = cfg.height * cfg.width then
      { st2 with is_end_of_game := true, winner := some 0 }
    else st2
  let st4 : GameState := { st3 with current_player := -color }
  (st4, st4.is_end_of_game)

/-- GameState.do_move (mnk.py lines 99-185). color falls back to
current_player when absent or falsy (Python color or
self.current_player); current_player is set to the color, and on an
illegal action it is reset before IllegalMove(str(action)) is raised.
The raise is an error value carrying the action and the state the
object is left in. -/
def do_move (cfg : MnkConfig) (st : GameState) (action : Int × Int)
    (ocolor : Option Int) : Except ((Int × Int) × GameState) (GameState × Bool) :=
  let color : Int :=
    match ocolor with
    | none => st.current_player
    | some c => if c = 0 then st.current_player else c
  let reset_player := st.current_player
  let st1 : GameState := { st with current_player := color }
  if is_legal cfg st1 action then
    .ok (do_move_legal cfg st1 action color)
  else
    .error (action, { st1 with current_player := reset_player })

/-- Scan a handler trace counting accepts, deserializations, closes and
processings: an accept requires every previously accepted connection to
have been deserialized, closed and processed already; a deserialization
belongs to the connection accepted last; a close requires a prior
deserialization of that connection; a processing requires a prior close.
A trace passes exactly when each connection is handled to completion in
the order accept, recv until EOF, deserialize, close, process before the
next connection is accepted. -/
def proto_scan : List HEvent → Nat → Nat → Nat → Nat → Bool
  | [], _, _, _, _ => true
  | HEvent.accept _ :: tr, na, nd, nc, np =>
      (na == nd && na == nc && na == np) && proto_scan tr (na + 1) nd nc np
  | HEvent.deserialize _ :: tr, na, nd, nc, np =>
      decide (nd < na) && proto_scan tr na (nd + 1) nc np
  | HEvent.closeConn :: tr, na, nd, nc, np =>
      decide (nc < nd) && proto_scan tr na nd (nc + 1) np
  | HEvent.process :: tr, na, nd, nc, np =>
      decide (np < nc) && proto_scan tr na nd nc (np + 1)
  | _ :: tr, na, nd, nc, np => proto_scan tr na nd nc np

theorem pool_sum_le (N : Nat) :
    ∀ s, PoolReachable N s → s.avail + s.running ≤ N := by
  intro s h
  induction h with
  | refl => simp [poolInit]
  | tail _ step ih =>
    cases step <;> dsimp only <;> omega

/-- C1: the spec requires Selfplay.selfplay_wrapper to release the
WorkerSlot (worker_lim unit) and the shared read lock (nn_eval.rwlock)
on every exit path. The body is straight-line code with no try/finally:
evaluated at an execution where game play raises, and at one where the
enqueue raises, the wrapper exits with the read lock still held
(readLocks went from 0 to 1 and was never released) and without
releasing the semaphore unit (semAvail stays 3). -/
theorem C1_exception_leaks_lock_and_slot :
    selfplay_wrapper (.error ()) false ⟨0, 3, []⟩ =
      .error (WrapperErr.gameError, ⟨1, 3, []⟩) ∧
    selfplay_wrapper (.ok 5) true ⟨0, 3, []⟩ =
      .error (WrapperErr.queueError, ⟨1, 3, []⟩) :=
  ⟨rfl, rfl⟩

/-- C2: the claim says a frame that fails to deserialize is discarded
and the listening loop of Selfplay.rcv_remote_data_handler keeps
accepting connections. The loop has no try/except around pickle.loads:
on a connection whose accumulated bytes are malformed (here the empty
buffer), the exception escapes the loop, the following well-formed
connection is never accepted and its frame is never enqueued. -/
theorem C2_malformed_frame_kills_listening_loop :
    (rcv_remote_data_loop pickle_loads_str ⟨([] : List String), []⟩
        [⟨"a1", []⟩, ⟨"a2", [pickle_dumps_str "g"]⟩]).2 = .error ((), ⟨[], []⟩) ∧
    HEvent.accept "a2" ∉ (rcv_remote_data_loop pickle_loads_str ⟨([] : List String), []⟩
        [⟨"a1", []⟩, ⟨"a2", [pickle_dumps_str "g"]⟩]).1 :=
  ⟨rfl, by decide⟩

/-- C4: with worker_lim = mp.Semaphore(num_worker), in every state the
launcher loop and the worker units can reach, the number of running
worker units never exceeds N, because the loop acquires a unit before
each launch; and a normally completing unit releases exactly one unit
(semAvail goes up by exactly one on the ok path of
selfplay_wrapper). -/
theorem C4_worker_limit_never_exceeded (N : Nat) (s : PoolState)
    (h : PoolReachable N s) :
    s.running ≤ N ∧
      ∀ (play : Except Unit GameData) (st st' : WrapperState),
        selfplay_wrapper play false st = .ok st' → st'.semAvail = st.semAvail + 1 := by
  refine ⟨by have := pool_sum_le N s h; omega, ?_⟩
  intro play st st' heq
  cases play with
  | error e => simp [selfplay_wrapper] at heq
  | ok data =>
    simp only [selfplay_wrapper, if_neg] at heq
    cases heq
    rfl

/-- Witness for C4 at N = 2 after one launch step. -/
theorem C4_witness :
    (⟨1, 1⟩ : PoolState).running ≤ 2 ∧
      ∀ (play : Except Unit GameData) (st st' : WrapperState),
        selfplay_wrapper play false st = .ok st' → st'.semAvail = st.semAvail + 1 :=
  C4_worker_limit_never_exceeded 2 ⟨1, 1⟩
    (Relation.ReflTransGen.single (PoolStep.launch (poolInit 2) (by decide)))

theorem isLoad_put (ok : String → Bool) (a pay : String) :
    isLoad (Remote_Queue_put ok a pay) = false := by
  unfold Remote_Queue_put
  split <;> rfl

theorem isSendAttempt_put (ok : String → Bool) (a pay : String) :
    isSendAttempt (Remote_Queue_put ok a pay) = true := by
  unfold Remote_Queue_put
  split <;> rfl

/-- C3: during a model-update broadcast, whatever subset of remotes is
unreachable (any reachability predicate ok), every reachable registered
remote still gets the model-identifier frame, every unreachable one is
reported as a failed attempt, and the local load still happens. -/
theorem C3_individual_failure_does_not_abort_broadcast
    (ok : String → Bool) (reg : Registry) (name path : String) :
    HEvent.load (ckpt_ident name path) ∈ model_update_iter ok reg name path ∧
    (∀ p ∈ reg, ok p.1 = true →
      HEvent.send p.1 (ckpt_ident name path) ∈ model_update_iter ok reg name path) ∧
    (∀ p ∈ reg, ok p.1 = false →
      HEvent.sendFail p.1 (ckpt_ident name path) ∈ model_update_iter ok reg name path) := by
  refine ⟨?_, ?_, ?_⟩
  · simp [model_update_iter]
  · intro p hp hok
    refine List.mem_append_left _ ?_
    refine List.mem_map.mpr ⟨p, hp, ?_⟩
    simp [Remote_Queue_put, hok]
  · intro p hp hok
    refine List.mem_append_left _ ?_
    refine List.mem_map.mpr ⟨p, hp, ?_⟩
    simp [Remote_Queue_put, hok]

/-- Witness for C3: registry with two remotes of which r2 is
unreachable. -/
theorem C3_witness :
    HEvent.load (ckpt_ident "mnk" "42") ∈
      model_update_iter (fun a => a != "r2") [("r1", true), ("r2", true)] "mnk" "42" ∧
    HEvent.send "r1" (ckpt_ident "mnk" "42") ∈
      model_update_iter (fun a => a != "r2") [("r1", true), ("r2", true)] "mnk" "42" ∧
    HEvent.sendFail "r2" (ckpt_ident "mnk" "42") ∈
      model_update_iter (fun a => a != "r2") [("r1", true), ("r2", true)] "mnk" "42" := by
  obtain ⟨h1, h2, h3⟩ :=
    C3_individual_failure_does_not_abort_broadcast (fun a => a != "r2")
      [("r1", true), ("r2", true)] "mnk" "42"
  exact ⟨h1, h2 ("r1", true) (by decide) (by decide), h3 ("r2", true) (by decide) (by decide)⟩

theorem model_update_iter_split_load (ok : String → Bool) (name path : String) :
    ∀ (reg : Registry) (t1 : List HEvent) (e : HEvent) (t2 : List HEvent),
      model_update_iter ok reg name path = t1 ++ e :: t2 →
      isSendAttempt e = true → HEvent.load (ckpt_ident name path) ∈ t2 := by
  intro reg
  unfold model_update_iter
  induction reg with
  | nil =>
    intro t1 e t2 heq hatt
    cases t1 with
    | nil =>
      simp only [List.map_nil, List.nil_append] at heq
      cases heq
      cases hatt
    | cons x t1' =>
      simp only [List.map_nil, List.nil_append, List.cons_append] at heq
      obtain ⟨-, habs⟩ := List.cons.inj heq
      exact absurd habs (by simp)
  | cons p reg' ih =>
    intro t1 e t2 heq hatt
    cases t1 with
    | nil =>
      simp only [List.map_cons, List.cons_append, List.nil_append] at heq
      obtain ⟨-, hrest⟩ := List.cons.inj heq
      rw [← hrest]
      simp
    | cons x t1' =>
      simp only [List.map_cons, List.cons_append] at heq
      obtain ⟨-, hrest⟩ := List.cons.inj heq
      exact ih t1' e t2 hrest hatt

/-- C5: on one received path value, the master update handler first
performs one send attempt per registry entry and only then loads
locally: the trace contains exactly one load event, one send attempt
per registry entry, and every send attempt occurs strictly before the
load. -/
theorem C5_all_sends_precede_local_load
    (ok : String → Bool) (reg : Registry) (name path : String) :
    ((model_update_iter ok reg name path).filter isLoad =
        [HEvent.load (ckpt_ident name path)]) ∧
    (((model_update_iter ok reg name path).filter isSendAttempt).length = reg.length) ∧
    (∀ t1 e t2, model_update_iter ok reg name path = t1 ++ e :: t2 →
      isSendAttempt e = true → HEvent.load (ckpt_ident name path) ∈ t2) := by
  refine ⟨?_, ?_, model_update_iter_split_load ok name path reg⟩
  · rw [model_update_iter, List.filter_append]
    have h1 : (reg.map fun p => Remote_Queue_put ok p.1 (ckpt_ident name path)).filter
        isLoad = [] := by
      rw [List.filter_eq_nil_iff]
      intro a ha
      obtain ⟨p, -, hp⟩ := List.mem_map.mp ha
      rw [← hp, isLoad_put]
      simp
    rw [h1]
    rfl
  · rw [model_update_iter, List.filter_append]
    have h1 : (reg.map fun p => Remote_Queue_put ok p.1 (ckpt_ident name path)).filter
        isSendAttempt = reg.map fun p => Remote_Queue_put ok p.1 (ckpt_ident name path) := by
      rw [List.filter_eq_self]
      intro a ha
      obtain ⟨p, -, hp⟩ := List.mem_map.mp ha
      rw [← hp, isSendAttempt_put]
    rw [h1]
    simp [isSendAttempt]

/-- Witness for C5: two registry entries, the split placing the first
send attempt before the rest of the trace. -/
theorem C5_witness :
    ((model_update_iter (fun _ => true) [("r1", true), ("r2", true)] "mnk" "7").filter
        isLoad = [HEvent.load (ckpt_ident "mnk" "7")]) ∧
    HEvent.load (ckpt_ident "mnk" "7") ∈
      [HEvent.send "r2" (ckpt_ident "mnk" "7"), HEvent.load (ckpt_ident "mnk" "7")] := by
  obtain ⟨h1, -, h3⟩ :=
    C5_all_sends_precede_local_load (fun _ => true) [("r1", true), ("r2", true)] "mnk" "7"
  refine ⟨h1, h3 [] (HEvent.send "r1" (ckpt_ident "mnk" "7"))
    [HEvent.send "r2" (ckpt_ident "mnk" "7"), HEvent.load (ckpt_ident "mnk" "7")] ?_ rfl⟩
  rfl

theorem proto_scan_recvs (bs : List Bytes) :
    ∀ (tr : List HEvent) (na nd nc np : Nat),
      proto_scan (bs.map HEvent.recv ++ tr) na nd nc np = proto_scan tr na nd nc np := by
  induction bs with
  | nil => intro tr na nd nc np; rfl
  | cons b bs ih =>
    intro tr na nd nc np
    show proto_scan (HEvent.recv b :: (bs.map HEvent.recv ++ tr)) na nd nc np = _
    exact ih tr na nd nc np

theorem proto_scan_iter (c : Conn) (tr : List HEvent) (n : Nat) :
    proto_scan (iter_trace true c ++ tr) n n n n =
      proto_scan tr (n + 1) (n + 1) (n + 1) (n + 1) := by
  show proto_scan (HEvent.accept c.addr ::
      ((c.chunks.map HEvent.recv ++ [HEvent.deserialize c.chunks.flatten,
        HEvent.closeConn, HEvent.process]) ++ tr)) n n n n = _
  rw [proto_scan, List.append_assoc, proto_scan_recvs]
  simp [proto_scan, Nat.lt_succ_self]

theorem proto_scan_flatten : ∀ (cs : List Conn) (n : Nat),
    proto_scan ((cs.map (iter_trace true)).flatten) n n n n = true := by
  intro cs
  induction cs with
  | nil => intro n; rfl
  | cons c cs ih =>
    intro n
    rw [List.map_cons, List.flatten_cons, proto_scan_iter]
    exact ih (n + 1)

theorem filter_isDeser_recvs (bs : List Bytes) :
    (bs.map HEvent.recv).filter isDeserialize = [] := by
  rw [List.filter_eq_nil_iff]
  intro a ha
  obtain ⟨b, -, hb⟩ := List.mem_map.mp ha
  rw [← hb]
  simp [isDeserialize]

theorem filter_deser_flatten : ∀ cs : List Conn,
    ((cs.map (iter_trace true)).flatten).filter isDeserialize =
      cs.map (fun c => HEvent.deserialize c.chunks.flatten) := by
  intro cs
  induction cs with
  | nil => rfl
  | cons c cs ih =>
    rw [List.map_cons, List.flatten_cons, List.filter_append, ih]
    show ((HEvent.accept c.addr :: (c.chunks.map HEvent.recv ++
      [HEvent.deserialize c.chunks.flatten, HEvent.closeConn, HEvent.process])).filter
        isDeserialize) ++ _ = _
    rw [List.filter_cons_of_neg (by simp [isDeserialize]), List.filter_append,
      filter_isDeser_recvs]
    rfl

theorem rcv_loop_trace_ok {α : Type} (decode : Bytes → Except Unit α) :
    ∀ (cs : List Conn) (st : MasterState α),
      (∀ c ∈ cs, ∃ v, decode c.chunks.flatten = Except.ok v) →
      (rcv_remote_data_loop decode st cs).1 = (cs.map (iter_trace true)).flatten := by
  intro cs
  induction cs with
  | nil => intro st _; rfl
  | cons c cs ih =>
    intro st h
    obtain ⟨v, hv⟩ := h c (List.mem_cons_self c cs)
    cases hd : decode c.chunks.flatten with
    | error e => rw [hd] at hv; cases hv
    | ok v' =>
      simp only [rcv_remote_data_loop, hd]
      rw [List.map_cons, List.flatten_cons,
        ih _ (fun c' hc' => h c' (List.mem_cons_of_mem c hc'))]

theorem remote_loop_trace_ok (decode : Bytes → Except Unit String) :
    ∀ (cs : List Conn) (st : RemoteState),
      (∀ c ∈ cs, ∃ v, decode c.chunks.flatten = Except.ok v) →
      (remote_update_loop decode st cs).1 = (cs.map (iter_trace true)).flatten := by
  intro cs
  induction cs with
  | nil => intro st _; rfl
  | cons c cs ih =>
    intro st h
    obtain ⟨v, hv⟩ := h c (List.mem_cons_self c cs)
    cases hd : decode c.chunks.flatten with
    | error e => rw [hd] at hv; cases hv
    | ok v' =>
      simp only [remote_update_loop, hd]
      rw [List.map_cons, List.flatten_cons,
        ih _ (fun c' hc' => h c' (List.mem_cons_of_mem c hc'))]

/-- C6 (amended): for both receiving handlers, when the frames
deserialize, the handler run over any sequence of connections
deserializes, per accepted connection, exactly one frame, namely the
concatenation of everything received from that connection up to EOF;
and the handler handles each connection to completion in the order
accept, recv until EOF, deserialize, close, process, before the next
connection is accepted. Note the code closes the connection before
processing the frame, not after. -/
theorem C6_one_frame_per_connection {α : Type}
    (decode : Bytes → Except Unit α) (decode2 : Bytes → Except Unit String)
    (st : MasterState α) (rst : RemoteState) (cs cs2 : List Conn)
    (h1 : ∀ c ∈ cs, ∃ v, decode c.chunks.flatten = Except.ok v)
    (h2 : ∀ c ∈ cs2, ∃ v, decode2 c.chunks.flatten = Except.ok v) :
    ((rcv_remote_data_loop decode st cs).1.filter isDeserialize =
        cs.map (fun c => HEvent.deserialize c.chunks.flatten)) ∧
    proto_scan (rcv_remote_data_loop decode st cs).1 0 0 0 0 = true ∧
    ((remote_update_loop decode2 rst cs2).1.filter isDeserialize =
        cs2.map (fun c => HEvent.deserialize c.chunks.flatten)) ∧
    proto_scan (remote_update_loop decode2 rst cs2).1 0 0 0 0 = true := by
  rw [rcv_loop_trace_ok decode cs st h1, remote_loop_trace_ok decode2 cs2 rst h2]
  exact ⟨filter_deser_flatten cs, proto_scan_flatten cs 0,
    filter_deser_flatten cs2, proto_scan_flatten cs2 0⟩

/-- Witness for C6: one data connection of two chunks for the master
receiver and one update connection for a remote. -/
theorem C6_witness :
    ((rcv_remote_data_loop pickle_loads_str ⟨([] : List String), []⟩
        [⟨"a", [['S'], ['x']]⟩]).1.filter isDeserialize =
      [(⟨"a", [['S'], ['x']]⟩ : Conn)].map
        (fun c => HEvent.deserialize c.chunks.flatten)) ∧
    proto_scan (rcv_remote_data_loop pickle_loads_str ⟨([] : List String), []⟩
        [⟨"a", [['S'], ['x']]⟩]).1 0 0 0 0 = true ∧
    ((remote_update_loop pickle_loads_str ⟨[], []⟩
        [⟨"b", [pickle_dumps_str "m"]⟩]).1.filter isDeserialize =
      [(⟨"b", [pickle_dumps_str "m"]⟩ : Conn)].map
        (fun c => HEvent.deserialize c.chunks.flatten)) ∧
    proto_scan (remote_update_loop pickle_loads_str ⟨[], []⟩
        [⟨"b", [pickle_dumps_str "m"]⟩]).1 0 0 0 0 = true := by
  have h1 : ∀ c ∈ [(⟨"a", [['S'], ['x']]⟩ : Conn)],
      ∃ v, pickle_loads_str c.chunks.flatten = Except.ok v := by
    intro c hc
    rw [List.mem_singleton] at hc
    subst hc
    exact ⟨"x", rfl⟩
  have h2 : ∀ c ∈ [(⟨"b", [pickle_dumps_str "m"]⟩ : Conn)],
      ∃ v, pickle_loads_str c.chunks.flatten = Except.ok v := by
    intro c hc
    rw [List.mem_singleton] at hc
    subst hc
    exact ⟨"m", rfl⟩
  exact C6_one_frame_per_connection pickle_loads_str pickle_loads_str
    ⟨([] : List String), []⟩ ⟨[], []⟩ [⟨"a", [['S'], ['x']]⟩]
    [⟨"b", [pickle_dumps_str "m"]⟩] h1 h2

theorem iter_trace_no_send (b : Bool) (c : Conn) :
    ∀ e ∈ iter_trace b c, isSendAttempt e = false := by
  intro e he
  cases b <;> simp [iter_trace] at he
  · rcases he with rfl | ⟨b', -, rfl⟩ <;> rfl
  · rcases he with rfl | ⟨b', -, rfl⟩ | rfl | rfl | rfl <;> rfl

theorem remote_loop_no_send (decode : Bytes → Except Unit String) :
    ∀ (cs : List Conn) (st : RemoteState),
      ∀ e ∈ (remote_update_loop decode st cs).1, isSendAttempt e = false := by
  intro cs
  induction cs with
  | nil => intro st e he; cases he
  | cons c cs ih =>
    intro st e he
    cases hd : decode c.chunks.flatten with
    | error err =>
      simp only [remote_update_loop, hd] at he
      exact iter_trace_no_send false c e he
    | ok v =>
      simp only [remote_update_loop, hd] at he
      rcases List.mem_append.mp he with hm | hm
      · exact iter_trace_no_send true c e hm
      · exact ih _ e hm

theorem remote_loop_loads (decode : Bytes → Except Unit String) :
    ∀ (cs : List Conn) (ids : List String) (st : RemoteState),
      cs.map (fun c => decode c.chunks.flatten) = ids.map Except.ok →
      (remote_update_loop decode st cs).2 = Except.ok ⟨st.loaded ++ ids, st.reg⟩ := by
  intro cs
  induction cs with
  | nil =>
    intro ids st h
    cases ids with
    | nil => simp [remote_update_loop]
    | cons i ids' => simp at h
  | cons c cs ih =>
    intro ids st h
    cases ids with
    | nil => simp at h
    | cons i ids' =>
      simp only [List.map_cons] at h
      obtain ⟨h1, h2⟩ := List.cons.inj h
      simp only [remote_update_loop, h1]
      rw [ih ids' _ h2]
      simp

/-- C7: a Selfplay instance configured remote starts only the remote
update listener; a master starts the remote-data receiver and the model
update handler. The remote listener performs no fan-out (its trace has
no send attempt), never touches the registry of its process, and loads
exactly the decoded identifiers, in order. -/
theorem C7_remote_loads_master_fans_out (decode : Bytes → Except Unit String)
    (st : RemoteState) (cs : List Conn) :
    run_handlers true = [Handler.remote_update] ∧
    run_handlers false = [Handler.rcv_remote_data, Handler.model_update] ∧
    (∀ e ∈ (remote_update_loop decode st cs).1, isSendAttempt e = false) ∧
    (∀ ids : List String,
      cs.map (fun c => decode c.chunks.flatten) = ids.map Except.ok →
      (remote_update_loop decode st cs).2 = Except.ok ⟨st.loaded ++ ids, st.reg⟩) :=
  ⟨rfl, rfl, remote_loop_no_send decode cs st,
    fun ids h => remote_loop_loads decode cs ids st h⟩

/-- Witness for C7: one frame carrying identifier m1 received by a
remote with an empty load history. -/
theorem C7_witness :
    run_handlers true = [Handler.remote_update] ∧
    run_handlers false = [Handler.rcv_remote_data, Handler.model_update] ∧
    isSendAttempt (HEvent.accept "b") = false ∧
    (remote_update_loop pickle_loads_str ⟨[], []⟩
        [⟨"b", [pickle_dumps_str "m1"]⟩]).2 = Except.ok ⟨["m1"], []⟩ := by
  obtain ⟨ha, hb, hc, hd⟩ :=
    C7_remote_loads_master_fans_out pickle_loads_str ⟨[], []⟩
      [⟨"b", [pickle_dumps_str "m1"]⟩]
  exact ⟨ha, hb, hc (HEvent.accept "b") (by decide), hd ["m1"] (by rfl)⟩

theorem reg_set_keys (reg : Registry) (b : String) :
    ∀ a, a ∈ reg_keys reg → a ∈ reg_keys (reg_set reg b) := by
  intro a ha
  unfold reg_set
  split
  · have hkeys : reg_keys (reg.map fun p => if p.1 == b then (p.1, true) else p) =
        reg_keys reg := by
      unfold reg_keys
      rw [List.map_map]
      congr 1
      funext p
      by_cases h : p.1 = b <;> simp [h]
    rw [hkeys]
    exact ha
  · unfold reg_keys at ha ⊢
    rw [List.map_append]
    exact List.mem_append_left _ ha

theorem reg_lookup_set_self : ∀ (reg : Registry) (a : String),
    reg_lookup (reg_set reg a) a = some true := by
  intro reg a
  induction reg with
  | nil => simp [reg_set, reg_lookup, List.find?]
  | cons p reg' ih =>
    by_cases hp : p.1 == a
    · have hany : (p :: reg').any (fun q => q.1 == a) = true := by
        simp [List.any_cons, hp]
      rw [reg_set, if_pos hany]
      simp only [List.map_cons, if_pos hp]
      simp [reg_lookup, List.find?, hp]
    · by_cases hany' : reg'.any (fun q => q.1 == a) = true
      · have hany : (p :: reg').any (fun q => q.1 == a) = true := by
          simp [List.any_cons, hany']
        rw [reg_set, if_pos hany]
        rw [reg_set, if_pos hany'] at ih
        simp only [List.map_cons, if_neg hp]
        simp only [reg_lookup, List.find?] at ih ⊢
        rw [Bool.not_eq_true] at hp
        rw [hp]
        exact ih
      · have hany : ¬((p :: reg').any (fun q => q.1 == a) = true) := by
          simp [List.any_cons, hp] at hany' ⊢
          exact hany'
        rw [reg_set, if_neg hany]
        rw [reg_set, if_neg hany'] at ih
        simp only [List.cons_append]
        simp only [reg_lookup, List.find?] at ih ⊢
        rw [Bool.not_eq_true] at hp
        rw [hp]
        exact ih

theorem rcv_loop_reg_mono {α : Type} (decode : Bytes → Except Unit α) :
    ∀ (cs : List Conn) (st st' : MasterState α),
      ((rcv_remote_data_loop decode st cs).2 = Except.ok st' ∨
        ∃ e, (rcv_remote_data_loop decode st cs).2 = Except.error (e, st')) →
      ∀ a, a ∈ reg_keys st.reg → a ∈ reg_keys st'.reg := by
  intro cs
  induction cs with
  | nil =>
    intro st st' h a ha
    rcases h with h | ⟨e, h⟩
    · injection h with h2
      rw [← h2]
      exact ha
    · exact Except.noConfusion h
  | cons c cs ih =>
    intro st st' h a ha
    cases hd : decode c.chunks.flatten with
    | error err =>
      simp only [rcv_remote_data_loop, hd] at h
      rcases h with h | ⟨e, h⟩
      · exact Except.noConfusion h
      · injection h with h2
        obtain ⟨-, h3⟩ := Prod.mk.inj h2
        rw [← h3]
        exact ha
    | ok v =>
      simp only [rcv_remote_data_loop, hd] at h
      exact ih _ _ h a (reg_set_keys st.reg c.addr a ha)

/-- C8: a registry entry mapped to True is created for an address on the
first successfully received and enqueued frame from it, and no step of
the loop ever deletes entries: whether the loop ends normally (on this
finite prefix) or dies on a malformed frame, every key present at the
start is present in the final registry. -/
theorem C8_registry_only_grows {α : Type} (decode : Bytes → Except Unit α)
    (st : MasterState α) (cs : List Conn) :
    (∀ st', ((rcv_remote_data_loop decode st cs).2 = Except.ok st' ∨
        ∃ e, (rcv_remote_data_loop decode st cs).2 = Except.error (e, st')) →
      ∀ a, a ∈ reg_keys st.reg → a ∈ reg_keys st'.reg) ∧
    (∀ (c : Conn) (v : α), decode c.chunks.flatten = Except.ok v →
      (rcv_remote_data_loop decode st [c]).2 =
        Except.ok ⟨st.dataQueue ++ [v], reg_set st.reg c.addr⟩ ∧
      reg_lookup (reg_set st.reg c.addr) c.addr = some true) := by
  refine ⟨fun st' h => rcv_loop_reg_mono decode cs st st' h, ?_⟩
  intro c v hv
  refine ⟨?_, reg_lookup_set_self st.reg c.addr⟩
  simp only [rcv_remote_data_loop, hv]

/-- Witness for C8: a master whose registry already holds r0 receives
one frame from address a; r0 survives and a is registered as True. -/
theorem C8_witness :
    (("r0" : String) ∈ reg_keys ((⟨["x"], [("r0", true), ("a", true)]⟩ :
        MasterState String).reg)) ∧
    reg_lookup (reg_set ([("r0", true)] : Registry) "a") "a" = some true := by
  obtain ⟨hmono, hcreate⟩ :=
    C8_registry_only_grows pickle_loads_str
      (⟨[], [("r0", true)]⟩ : MasterState String) [⟨"a", [['S'], ['x']]⟩]
  refine ⟨hmono ⟨["x"], [("r0", true), ("a", true)]⟩ (Or.inl (by rfl)) "r0" (by decide),
    (hcreate ⟨"a", [['S'], ['x']]⟩ "x" (by rfl)).2⟩

theorem pickle_roundtrip_str (s : String) :
    pickle_loads_str (pickle_dumps_str s) = Except.ok s := rfl

/-- C9: for one update event, the identifier the master sends to every
remote (reachable or not), the identifier the master then loads
locally, and the identifier a remote decodes from the received frame
and passes to its own load are all the same string,
./ + name + _model/ckpt- + path. -/
theorem C9_master_and_remote_load_same_identifier
    (ok : String → Bool) (reg : Registry) (name path : String)
    (l0 : List String) (r0 : Registry) :
    (∀ a pay, HEvent.send a pay ∈ model_update_iter ok reg name path →
      pay = ckpt_ident name path) ∧
    (∀ a pay, HEvent.sendFail a pay ∈ model_update_iter ok reg name path →
      pay = ckpt_ident name path) ∧
    HEvent.load (ckpt_ident name path) ∈ model_update_iter ok reg name path ∧
    pickle_loads_str (pickle_dumps_str (ckpt_ident name path)) =
      Except.ok (ckpt_ident name path) ∧
    (∀ addr : String,
      (remote_update_loop pickle_loads_str ⟨l0, r0⟩
          [⟨addr, [pickle_dumps_str (ckpt_ident name path)]⟩]).2 =
        Except.ok ⟨l0 ++ [ckpt_ident name path], r0⟩) := by
  refine ⟨?_, ?_, by simp [model_update_iter], pickle_roundtrip_str _, ?_⟩
  · intro a pay hmem
    rcases List.mem_append.mp hmem with hm | hm
    · obtain ⟨p, -, hp⟩ := List.mem_map.mp hm
      unfold Remote_Queue_put at hp
      split at hp
      · injection hp with h1 h2
        exact h2.symm
      · exact HEvent.noConfusion hp
    · rw [List.mem_singleton] at hm
      exact HEvent.noConfusion hm
  · intro a pay hmem
    rcases List.mem_append.mp hmem with hm | hm
    · obtain ⟨p, -, hp⟩ := List.mem_map.mp hm
      unfold Remote_Queue_put at hp
      split at hp
      · exact HEvent.noConfusion hp
      · injection hp with h1 h2
        exact h2.symm
    · rw [List.mem_singleton] at hm
      exact HEvent.noConfusion hm
  · intro addr
    refine remote_loop_loads pickle_loads_str _ [ckpt_ident name path] ⟨l0, r0⟩ ?_
    simp [pickle_roundtrip_str]

/-- Witness for C9: one registered remote, path 3, game mnk. -/
theorem C9_witness :
    ckpt_ident "mnk" "3" = ckpt_ident "mnk" "3" ∧
    HEvent.load (ckpt_ident "mnk" "3") ∈
      model_update_iter (fun _ => true) [("r1", true)] "mnk" "3" ∧
    pickle_loads_str (pickle_dumps_str (ckpt_ident "mnk" "3")) =
      Except.ok (ckpt_ident "mnk" "3") ∧
    (remote_update_loop pickle_loads_str ⟨[], []⟩
        [⟨"rem", [pickle_dumps_str (ckpt_ident "mnk" "3")]⟩]).2 =
      Except.ok ⟨[ckpt_ident "mnk" "3"], []⟩ := by
  obtain ⟨h1, -, h3, h4, h5⟩ :=
    C9_master_and_remote_load_same_identifier (fun _ => true) [("r1", true)]
      "mnk" "3" [] []
  exact ⟨h1 "r1" (ckpt_ident "mnk" "3") (by decide), h3, h4, h5 "rem"⟩

/-- C10: do_move with no explicit color raises IllegalMove exactly when
is_legal is false, and the raise leaves every component of the state as
it was: the transient current_player assignment is undone before the
raise. -/
theorem C10_do_move_illegal_iff (cfg : MnkConfig) (st : GameState) (a : Int × Int) :
    ((∃ m s', do_move cfg st a none = Except.error (m, s')) ↔
      is_legal cfg st a = false) ∧
    (∀ m s', do_move cfg st a none = Except.error (m, s') →
      s'.board = st.board ∧ s'.current_player = st.current_player ∧
      s'.history = st.history ∧ s'.board_history = st.board_history ∧
      s'.turns = st.turns ∧ s'.is_end_of_game = st.is_end_of_game ∧
      s'.winner = st.winner) := by
  have hin : do_move cfg st a none =
      if is_legal cfg st a then Except.ok (do_move_legal cfg st a st.current_player)
      else Except.error (a, st) := rfl
  rw [hin]
  cases h : is_legal cfg st a with
  | false =>
    rw [if_neg (by simp [h])]
    refine ⟨⟨fun _ => rfl, fun _ => ⟨a, st, rfl⟩⟩, ?_⟩
    intro m s' heq
    injection heq with h2
    obtain ⟨-, h3⟩ := Prod.mk.inj h2
    rw [← h3]
    exact ⟨rfl, rfl, rfl, rfl, rfl, rfl, rfl⟩
  | true =>
    rw [if_pos (by simp [h])]
    refine ⟨⟨?_, ?_⟩, ?_⟩
    · rintro ⟨m, s', habs⟩
      exact Except.noConfusion habs
    · intro hf
      exact Bool.noConfusion hf
    · intro m s' heq
      exact Except.noConfusion heq

/-- Witness for C10: the off-board action (5, 5) on an empty 3 by 3
board raises and leaves the position untouched. -/
theorem C10_witness :
    (∃ m s', do_move ⟨3, 3, 3⟩
        ⟨List.replicate 3 (List.replicate 3 0), 1, [],
          List.replicate 7 (List.replicate 3 (List.replicate 3 0)), false, none, 0⟩
        (5, 5) none = Except.error (m, s')) ∧
    (⟨List.replicate 3 (List.replicate 3 0), 1, [],
        List.replicate 7 (List.replicate 3 (List.replicate 3 0)), false, none, 0⟩ :
      GameState).winner = none := by
  have h := C10_do_move_illegal_iff ⟨3, 3, 3⟩
    ⟨List.replicate 3 (List.replicate 3 0), 1, [],
      List.replicate 7 (List.replicate 3 (List.replicate 3 0)), false, none, 0⟩
    (5, 5)
  refine ⟨h.1.mpr (by decide), ?_⟩
  have h2 := (h.2 (5, 5)
    ⟨List.replicate 3 (List.replicate 3 0), 1, [],
      List.replicate 7 (List.replicate 3 (List.replicate 3 0)), false, none, 0⟩ rfl)
  exact h2.2.2.2.2.2.2

/-- C6 counterexample: the claim states the handler processes the frame
and then closes the connection. On a concrete connection the master
receiver trace is accept, recv, deserialize, close, process: the close
(index 3) comes strictly before the processing of the frame (index 4),
as in the source, where client_connection.close() precedes
data_queue.put. -/
theorem C6_counterexample_close_precedes_processing :
    ((rcv_remote_data_loop pickle_loads_str ⟨([] : List String), []⟩
        [⟨"a", [['S', 'x']]⟩]).1 =
      [HEvent.accept "a", HEvent.recv ['S', 'x'],
        HEvent.deserialize ['S', 'x'], HEvent.closeConn, HEvent.process]) ∧
    (rcv_remote_data_loop pickle_loads_str ⟨([] : List String), []⟩
        [⟨"a", [['S', 'x']]⟩]).1.indexOf HEvent.closeConn <
      (rcv_remote_data_loop pickle_loads_str ⟨([] : List String), []⟩
        [⟨"a", [['S', 'x']]⟩]).1.indexOf HEvent.process :=
  ⟨rfl, by decide⟩
